import Mathlib

/-!
Verification of `git-add-all` (src/main.rs): a tool that composes a commit
message from the current branch name and CLI arguments, stages all changed
paths reported by the status scan, and creates a commit.

The development shallowly embeds:
* the pure Message Composer (`State` with `message`, `split_message`,
  `args_has_ticket_id`, `branch_ticket_id`);
* the per-entry status handling of the scan loop in `main` (git2 `Status`
  bitflag values, the exact-value `match`, the `is_empty` flag, and the
  `add_path` / `remove_path` effects on the index);
* the control flow of `main` (argument check, repository discovery, index
  load, HEAD resolution, status scan, nothing-to-commit abort, commit).
-/

/-- Model of Rust `str::starts_with` on a pattern, at character granularity:
`listStartsWith pat s` is true when `pat` is an initial run of `s`. -/
def listStartsWith : List Char → List Char → Bool
  | [], _ => true
  | _ :: _, [] => false
  | p :: ps, c :: cs => (p = c) && listStartsWith ps cs

/-- Rust `s.starts_with(pat)`. -/
def strStartsWith (s pat : String) : Bool :=
  listStartsWith pat.toList s.toList

/-- Model of Rust `str::find("/")`: index (in characters; `/` is one byte, so
character and byte positions of the first `/` delimit the same prefix) of the
first `/`, if any. -/
def findSlash : List Char → Option Nat
  | [] => none
  | c :: cs => if c = '/' then some 0 else (findSlash cs).map (· + 1)

/-- The `State` struct of src/main.rs: current branch name and the positional
arguments. -/
structure State where
  branch : String
  args : List String

/-- `State::args_has_ticket_id`: the first argument, when present, starts with
`"KDB-"`. -/
def State.args_has_ticket_id (st : State) : Bool :=
  match st.args.head? with
  | some arg => strStartsWith arg "KDB-"
  | none => false

/-- `State::branch_ticket_id`: `None` unless the branch starts with `"KDB-"`;
otherwise the branch up to (not including) the first `/`, or the whole branch
when it has no `/`. -/
def State.branch_ticket_id (st : State) : Option String :=
  if strStartsWith st.branch "KDB-" = false then none
  else
    match findSlash st.branch.toList with
    | some i => some (String.mk (st.branch.toList.take i))
    | none => some st.branch

/-- `State::split_message`: the argument list verbatim when its first element
carries a ticket id; otherwise the branch ticket id (when extracted) inserted
at position 0. -/
def State.split_message (st : State) : List String :=
  if st.args_has_ticket_id then st.args
  else
    match st.branch_ticket_id with
    | some id => id :: st.args
    | none => st.args

/-- `State::message`: the split message joined with `" "`. -/
def State.message (st : State) : String :=
  String.intercalate " " st.split_message

/-! ### Helper lemmas about the composer -/

lemma args_has_ticket_id_eq_false (b : String) (A : List String)
    (hA : A.head?.all (fun a => !(strStartsWith a "KDB-")) = true) :
    State.args_has_ticket_id { branch := b, args := A } = false := by
  cases A with
  | nil => rfl
  | cons a as =>
    simp only [Option.all, List.head?] at hA
    simp only [State.args_has_ticket_id, List.head?]
    simp only [Bool.not_eq_true'] at hA
    exact hA

lemma startsWith_KDB_shape (b : String) (h : strStartsWith b "KDB-" = true) :
    ∃ t, b.toList = 'K' :: 'D' :: 'B' :: '-' :: t := by
  unfold strStartsWith at h
  have hpat : ("KDB-" : String).toList = ['K', 'D', 'B', '-'] := by decide
  rw [hpat] at h
  match hb : b.toList with
  | [] => rw [hb] at h; simp [listStartsWith] at h
  | [c1] => rw [hb] at h; simp [listStartsWith] at h
  | [c1, c2] => rw [hb] at h; simp [listStartsWith] at h
  | [c1, c2, c3] => rw [hb] at h; simp [listStartsWith] at h
  | c1 :: c2 :: c3 :: c4 :: t =>
    rw [hb] at h
    simp only [listStartsWith, Bool.and_eq_true, decide_eq_true_eq] at h
    obtain ⟨h1, h2, h3, h4, _⟩ := h
    exact ⟨t, by rw [← h1, ← h2, ← h3, ← h4]⟩

lemma findSlash_lt_length (l : List Char) (i : Nat) (h : findSlash l = some i) :
    i < l.length := by
  induction l generalizing i with
  | nil => simp [findSlash] at h
  | cons c cs ih =>
    simp only [findSlash] at h
    by_cases hc : c = '/'
    · rw [if_pos hc, Option.some.injEq] at h
      subst h
      simp
    · rw [if_neg hc, Option.map_eq_some'] at h
      obtain ⟨j, hj, hji⟩ := h
      have := ih j hj
      simp only [List.length_cons]
      omega

lemma findSlash_eq_none_iff (l : List Char) :
    findSlash l = none ↔ '/' ∉ l := by
  induction l with
  | nil => simp [findSlash]
  | cons c cs ih =>
    simp only [findSlash, List.mem_cons]
    by_cases hc : c = '/'
    · simp [hc]
    · rw [if_neg hc, Option.map_eq_none', ih]
      constructor
      · intro h hmem
        rcases hmem with hmem | hmem
        · exact hc hmem.symm
        · exact h hmem
      · intro h hmem
        exact h (Or.inr hmem)

lemma take_findSlash_eq_takeWhile (l : List Char) (i : Nat)
    (h : findSlash l = some i) :
    l.take i = l.takeWhile (fun c => c != '/') := by
  induction l generalizing i with
  | nil => simp [findSlash] at h
  | cons c cs ih =>
    simp only [findSlash] at h
    by_cases hc : c = '/'
    · rw [if_pos hc, Option.some.injEq] at h
      subst h
      simp [List.takeWhile, hc]
    · rw [if_neg hc, Option.map_eq_some'] at h
      obtain ⟨j, hj, hji⟩ := h
      subst hji
      simp only [List.take_succ_cons, List.takeWhile]
      have hbne : (c != '/') = true := by simpa using hc
      rw [hbne]
      simp only [List.cons.injEq, true_and]
      exact ih j hj

lemma findSlash_ge_four (t : List Char) (i : Nat)
    (h : findSlash ('K' :: 'D' :: 'B' :: '-' :: t) = some i) :
    ∃ j, findSlash t = some j ∧ i = j + 4 := by
  simp only [findSlash, if_neg (by decide : ¬('K' = '/')),
    if_neg (by decide : ¬('D' = '/')), if_neg (by decide : ¬('B' = '/')),
    if_neg (by decide : ¬('-' = '/')), Option.map_map] at h
  rw [Option.map_eq_some'] at h
  obtain ⟨j, hj, hji⟩ := h
  refine ⟨j, hj, ?_⟩
  simp only [Function.comp] at hji
  omega

lemma branch_ticket_id_startsWith (st : State) (id : String)
    (h : st.branch_ticket_id = some id) :
    strStartsWith id "KDB-" = true := by
  unfold State.branch_ticket_id at h
  by_cases hb : strStartsWith st.branch "KDB-" = false
  · simp [hb] at h
  · rw [if_neg hb] at h
    rw [Bool.not_eq_false] at hb
    obtain ⟨t, ht⟩ := startsWith_KDB_shape st.branch hb
    cases hf : findSlash st.branch.toList with
    | none => rw [hf] at h; simp only [Option.some.injEq] at h; rw [← h]; exact hb
    | some i =>
      rw [hf] at h
      simp only [Option.some.injEq] at h
      rw [ht] at hf
      obtain ⟨j, _, hij⟩ := findSlash_ge_four t i hf
      subst hij
      rw [← h]
      unfold strStartsWith
      have hpat : ("KDB-" : String).toList = ['K', 'D', 'B', '-'] := by decide
      rw [hpat]
      have hmk : (String.mk (st.branch.toList.take (j + 4))).toList
          = st.branch.toList.take (j + 4) := rfl
      rw [hmk, ht]
      simp only [List.take_succ_cons, listStartsWith]
      simp [listStartsWith]

/-! ### Composer claim theorems -/

/-- Claim C3: for every branch name `B` and every non-empty argument list whose
first element starts with the ticket-id pattern `KDB-`, the composed message is
the arguments joined with a single space, verbatim, independent of `B`. -/
theorem message_args_ticket_verbatim (B a : String) (A : List String)
    (h : strStartsWith a "KDB-" = true) :
    State.message { branch := B, args := a :: A } = String.intercalate " " (a :: A) := by
  have hflag : State.args_has_ticket_id { branch := B, args := a :: A } = true := by
    simp only [State.args_has_ticket_id, List.head?]
    exact h
  simp only [State.message, State.split_message, hflag, if_true]

theorem message_args_ticket_verbatim_witness :
    strStartsWith "KDB-456" "KDB-" = true
    ∧ State.message { branch := "KDB-123", args := ["KDB-456", "bar"] }
        = String.intercalate " " ["KDB-456", "bar"] :=
  ⟨by decide, message_args_ticket_verbatim "KDB-123" "KDB-456" ["bar"] (by decide)⟩

/-- Claim C4: for every branch name starting with `KDB-` and containing `/`,
and arguments whose first element (if any) does not start with `KDB-`, the
composed message is the branch prefix up to (not including) the first `/`
prepended to the arguments and joined with single spaces. -/
theorem message_branch_slash (B : String) (A : List String)
    (hB : strStartsWith B "KDB-" = true)
    (hS : '/' ∈ B.toList)
    (hA : A.head?.all (fun a => !(strStartsWith a "KDB-")) = true) :
    State.message { branch := B, args := A }
      = String.intercalate " "
          (String.mk (B.toList.takeWhile (fun c => c != '/')) :: A) := by
  have hflag := args_has_ticket_id_eq_false B A hA
  cases hf : findSlash B.toList with
  | none =>
    exact absurd hS ((findSlash_eq_none_iff B.toList).mp hf)
  | some i =>
    have hid : State.branch_ticket_id { branch := B, args := A }
        = some (String.mk (B.toList.takeWhile (fun c => c != '/'))) := by
      simp only [State.branch_ticket_id, hB, if_neg (by simp : ¬(true = false)), hf,
        take_findSlash_eq_takeWhile B.toList i hf]
    simp only [State.message, State.split_message, hflag, Bool.false_eq_true, if_false, hid]

theorem message_branch_slash_witness :
    strStartsWith "KDB-42/feature-x" "KDB-" = true
    ∧ '/' ∈ ("KDB-42/feature-x" : String).toList
    ∧ (["did", "thing"] : List String).head?.all (fun a => !(strStartsWith a "KDB-")) = true
    ∧ State.message { branch := "KDB-42/feature-x", args := ["did", "thing"] }
        = String.intercalate " "
            (String.mk (("KDB-42/feature-x" : String).toList.takeWhile (fun c => c != '/'))
              :: ["did", "thing"]) :=
  ⟨by decide, by decide, by decide,
    message_branch_slash "KDB-42/feature-x" ["did", "thing"] (by decide) (by decide) (by decide)⟩

/-- Claim C5: for every branch name starting with `KDB-` and not containing
`/`, and arguments whose first element (if any) does not start with `KDB-`,
the composed message is the whole branch name prepended to the arguments and
joined with single spaces. -/
theorem message_branch_whole (B : String) (A : List String)
    (hB : strStartsWith B "KDB-" = true)
    (hS : '/' ∉ B.toList)
    (hA : A.head?.all (fun a => !(strStartsWith a "KDB-")) = true) :
    State.message { branch := B, args := A } = String.intercalate " " (B :: A) := by
  have hflag := args_has_ticket_id_eq_false B A hA
  have hf : findSlash B.toList = none := (findSlash_eq_none_iff B.toList).mpr hS
  have hid : State.branch_ticket_id { branch := B, args := A } = some B := by
    simp only [State.branch_ticket_id, hB, if_neg (by simp : ¬(true = false)), hf]
  simp only [State.message, State.split_message, hflag, Bool.false_eq_true, if_false, hid]

theorem message_branch_whole_witness :
    strStartsWith "KDB-123" "KDB-" = true
    ∧ '/' ∉ ("KDB-123" : String).toList
    ∧ (["foo", "bar"] : List String).head?.all (fun a => !(strStartsWith a "KDB-")) = true
    ∧ State.message { branch := "KDB-123", args := ["foo", "bar"] }
        = String.intercalate " " ("KDB-123" :: ["foo", "bar"]) :=
  ⟨by decide, by decide, by decide,
    message_branch_whole "KDB-123" ["foo", "bar"] (by decide) (by decide) (by decide)⟩

/-- Claim C6: for every branch name not starting with `KDB-` (matching is
exact and case-sensitive, so e.g. `kdb-123` does not match) and arguments
whose first element (if any) does not start with `KDB-`, the composed message
is the arguments joined with single spaces, unmodified. -/
theorem message_no_ticket (B : String) (A : List String)
    (hB : strStartsWith B "KDB-" = false)
    (hA : A.head?.all (fun a => !(strStartsWith a "KDB-")) = true) :
    State.message { branch := B, args := A } = String.intercalate " " A := by
  have hflag := args_has_ticket_id_eq_false B A hA
  have hid : State.branch_ticket_id { branch := B, args := A } = none := by
    simp [State.branch_ticket_id, hB]
  simp only [State.message, State.split_message, hflag, Bool.false_eq_true, if_false, hid]

theorem message_no_ticket_witness :
    strStartsWith "kdb-123" "KDB-" = false
    ∧ (["foo", "bar"] : List String).head?.all (fun a => !(strStartsWith a "KDB-")) = true
    ∧ State.message { branch := "kdb-123", args := ["foo", "bar"] }
        = String.intercalate " " ["foo", "bar"] :=
  ⟨by decide, by decide,
    message_no_ticket "kdb-123" ["foo", "bar"] (by decide) (by decide)⟩

/-- Claim C7: whenever a ticket identifier is extracted from the branch name,
the composer applied to the empty argument list produces exactly that
identifier, which is never the empty string. -/
theorem message_empty_args_ticket (B id : String)
    (h : State.branch_ticket_id { branch := B, args := [] } = some id) :
    State.message { branch := B, args := [] } = id ∧ id ≠ "" := by
  constructor
  · have hflag : State.args_has_ticket_id { branch := B, args := ([] : List String) }
        = false := rfl
    simp only [State.message, State.split_message, hflag, Bool.false_eq_true, if_false, h]
    rfl
  · have hpre := branch_ticket_id_startsWith _ _ h
    intro he
    subst he
    exact absurd hpre (by decide)

theorem message_empty_args_ticket_witness :
    State.branch_ticket_id { branch := "KDB-42/feature-x", args := [] } = some "KDB-42"
    ∧ (State.message { branch := "KDB-42/feature-x", args := [] } = "KDB-42"
        ∧ ("KDB-42" : String) ≠ "") :=
  ⟨by decide, message_empty_args_ticket "KDB-42/feature-x" "KDB-42" (by decide)⟩

/-- Claim C10: the composer never fails: the empty argument list yields
`false` from the first-argument ticket check (no out-of-bounds access), the
index found for the first `/` is always strictly inside the branch character
sequence (the slice is in bounds; the model works at character granularity,
where every cut is on a character boundary), and any extracted identifier
still carries the full `KDB-` marker, so the slice lost nothing of it. -/
theorem composer_total_safe (b : String) (A : List String) :
    State.args_has_ticket_id { branch := b, args := [] } = false
    ∧ (findSlash b.toList).all (fun i => decide (i < b.toList.length)) = true
    ∧ (State.branch_ticket_id { branch := b, args := A }).all
        (fun id => strStartsWith id "KDB-") = true := by
  refine ⟨rfl, ?_, ?_⟩
  · cases hf : findSlash b.toList with
    | none => rfl
    | some i =>
      simp only [Option.all]
      exact decide_eq_true (findSlash_lt_length b.toList i hf)
  · cases hid : State.branch_ticket_id { branch := b, args := A } with
    | none => rfl
    | some id =>
      simp only [Option.all]
      exact branch_ticket_id_startsWith _ _ hid

/-! ### Status scan (the loop over `repo.statuses` in `main`)

git2 `Status` is a bitflags value; the constants below are the libgit2
`GIT_STATUS_*` bit values.  The Rust `match` in `main` compares the entry's
status against exact flag values (`Status::CURRENT | Status::INDEX_NEW | ...`
is an or-pattern of three exact values), so a combined status such as
`INDEX_NEW | WT_MODIFIED` matches none of the arms and falls through to `_`.
-/

namespace Status

def CURRENT : Nat := 0

def INDEX_NEW : Nat := 1

def INDEX_MODIFIED : Nat := 2

def INDEX_DELETED : Nat := 4

def INDEX_RENAMED : Nat := 8

def INDEX_TYPECHANGE : Nat := 16

def WT_NEW : Nat := 128

def WT_MODIFIED : Nat := 256

def WT_DELETED : Nat := 512

def WT_TYPECHANGE : Nat := 1024

def WT_RENAMED : Nat := 2048

def WT_UNREADABLE : Nat := 4096

def IGNORED : Nat := 16384

def CONFLICTED : Nat := 32768

end Status

/-- What the loop body does with one entry: `add` (`index.add_path`),
`remove` (`index.remove_path`), or `skip` (the `_ => {}` arm). -/
inductive StatusAction where
  | add
  | remove
  | skip
deriving DecidableEq

/-- The `match result.status()` of src/main.rs lines 136-150: the first arm
is the or-pattern `CURRENT | INDEX_NEW | INDEX_MODIFIED`, the second
`WT_NEW | WT_MODIFIED` (both call `add_path`), the third `WT_DELETED`
(calls `remove_path`); everything else is skipped. -/
def statusAction (s : Nat) : StatusAction :=
  if s = Status.CURRENT ∨ s = Status.INDEX_NEW ∨ s = Status.INDEX_MODIFIED then .add
  else if s = Status.WT_NEW ∨ s = Status.WT_MODIFIED then .add
  else if s = Status.WT_DELETED then .remove
  else .skip

/-- Accumulated effect of the scan: paths passed to `index.add_path`, paths
passed to `index.remove_path`, and the `is_empty` flag of `main`. -/
structure ScanResult where
  added : List String
  removed : List String
  is_empty : Bool
deriving DecidableEq

/-- One iteration of the `for result in repo.statuses(None)...` loop: on the
add arms, `is_empty = false` and `index.add_path(path)`; on the delete arm,
`is_empty = false` and `index.remove_path(path)`; otherwise nothing. -/
def stepEntry (acc : ScanResult) (e : String × Nat) : ScanResult :=
  match statusAction e.2 with
  | .add => { acc with added := acc.added ++ [e.1], is_empty := false }
  | .remove => { acc with removed := acc.removed ++ [e.1], is_empty := false }
  | .skip => acc

/-- The whole loop, starting from `is_empty = true` and an untouched index. -/
def scanStatuses (entries : List (String × Nat)) : ScanResult :=
  entries.foldl stepEntry { added := [], removed := [], is_empty := true }

/-- Classification bits: the entry reports an addition (staged or in the
working tree). -/
def isAddedStatus (s : Nat) : Bool :=
  ((s &&& Status.INDEX_NEW) != 0) || ((s &&& Status.WT_NEW) != 0)

/-- Classification bits: the entry reports a modification (staged or in the
working tree). -/
def isModifiedStatus (s : Nat) : Bool :=
  ((s &&& Status.INDEX_MODIFIED) != 0) || ((s &&& Status.WT_MODIFIED) != 0)

/-- Classification bits: the entry reports a deletion (staged or in the
working tree). -/
def isDeletedStatus (s : Nat) : Bool :=
  ((s &&& Status.INDEX_DELETED) != 0) || ((s &&& Status.WT_DELETED) != 0)

/-! ### Model of `main` -/

/-- The repository facts `main` consumes: whether `Repository::discover`
succeeds, whether the index loads, the branch shorthand of HEAD (`none` when
HEAD or its shorthand is unavailable), and the status entries. -/
structure RepoModel where
  discovered : Bool
  indexAvailable : Bool
  branch : Option String
  statuses : List (String × Nat)

/-- Outcome of one run of `main`: usage error (exit 1 before any repository
operation), a fatal `expect` panic with its message, the
nothing-to-commit abort (exit 1, nothing persisted), or a created commit
carrying the composed message and the staged/removed paths. -/
inductive MainOutcome where
  | usage
  | fatal (msg : String)
  | nothingToCommit
  | success (message : String) (added removed : List String)
deriving DecidableEq

/-- Control flow of `main`, in the order of src/main.rs: empty-argument check,
repository discovery, index load, HEAD/branch resolution, message
composition, status scan, `is_empty` check, then (only then) index write,
tree write and commit creation. -/
def mainModel (args : List String) (rm : RepoModel) : MainOutcome :=
  if args.isEmpty then .usage
  else if rm.discovered = false then .fatal "No repository found"
  else if rm.indexAvailable = false then .fatal "Index not found"
  else
    match rm.branch with
    | none => .fatal "No branch found"
    | some branch =>
      let message := State.message { branch := branch, args := args }
      let scan := scanStatuses rm.statuses
      if scan.is_empty then .nothingToCommit
      else .success message scan.added scan.removed

/-- Exit code of the process for each outcome (`expect` panics abort the
process with the Rust panic exit status 101). -/
def exitCode : MainOutcome → Nat
  | .usage => 1
  | .fatal _ => 101
  | .nothingToCommit => 1
  | .success _ _ _ => 0

/-- Whether a commit object was created. -/
def commitCreated : MainOutcome → Bool
  | .success _ _ _ => true
  | _ => false

/-- Whether the index was persisted to disk (`index.write()` runs only on the
success path, after the `is_empty` check). -/
def indexWrittenToDisk : MainOutcome → Bool
  | .success _ _ _ => true
  | _ => false

/-- Whether a tree object was written (`index.write_tree()` runs only on the
success path). -/
def treeWritten : MainOutcome → Bool
  | .success _ _ _ => true
  | _ => false

/-- Whether the usage message was printed to standard error. -/
def usagePrinted : MainOutcome → Bool
  | .usage => true
  | _ => false

/-! ### Scan and main claim theorems -/

/-- Claim C1 counterexample: the `CURRENT` (unmodified) status is classified
as neither added, nor modified, nor deleted, yet the scan does not skip it:
the entry's path is staged (`index.add_path`) and the entry makes the scan
count as non-empty, because `CURRENT` appears in the first arm of the `match`
in `main`. -/
theorem scan_skip_counterexample :
    isAddedStatus Status.CURRENT = false
    ∧ isModifiedStatus Status.CURRENT = false
    ∧ isDeletedStatus Status.CURRENT = false
    ∧ stepEntry { added := [], removed := [], is_empty := true } ("f", Status.CURRENT)
        = { added := ["f"], removed := [], is_empty := false } := by decide

/-- Claim C1 (amended): for every status entry whose classification is not
added, not modified, and not deleted, and whose status value is not exactly
`CURRENT` (which the code stages), the scan skips the entry: the accumulated
scan state — staged paths, removed paths, and the emptiness flag — is
unchanged. -/
theorem scan_skip_amended (acc : ScanResult) (p : String) (s : Nat)
    (h1 : isAddedStatus s = false) (h2 : isModifiedStatus s = false)
    (h3 : isDeletedStatus s = false) (h4 : s ≠ Status.CURRENT) :
    stepEntry acc (p, s) = acc := by
  simp only [isAddedStatus, Status.INDEX_NEW, Status.WT_NEW, Bool.or_eq_false_iff,
    bne_eq_false_iff_eq] at h1
  simp only [isModifiedStatus, Status.INDEX_MODIFIED, Status.WT_MODIFIED,
    Bool.or_eq_false_iff, bne_eq_false_iff_eq] at h2
  simp only [isDeletedStatus, Status.INDEX_DELETED, Status.WT_DELETED,
    Bool.or_eq_false_iff, bne_eq_false_iff_eq] at h3
  have hs1 : s ≠ Status.INDEX_NEW := by
    rintro rfl; exact absurd h1.1 (by decide)
  have hs2 : s ≠ Status.INDEX_MODIFIED := by
    rintro rfl; exact absurd h2.1 (by decide)
  have hs3 : s ≠ Status.WT_NEW := by
    rintro rfl; exact absurd h1.2 (by decide)
  have hs4 : s ≠ Status.WT_MODIFIED := by
    rintro rfl; exact absurd h2.2 (by decide)
  have hs5 : s ≠ Status.WT_DELETED := by
    rintro rfl; exact absurd h3.2 (by decide)
  have hact : statusAction s = .skip := by
    unfold statusAction
    rw [if_neg (by push_neg; exact ⟨h4, hs1, hs2⟩),
      if_neg (by push_neg; exact ⟨hs3, hs4⟩), if_neg hs5]
  simp [stepEntry, hact]

theorem scan_skip_amended_witness :
    isAddedStatus Status.IGNORED = false
    ∧ isModifiedStatus Status.IGNORED = false
    ∧ isDeletedStatus Status.IGNORED = false
    ∧ Status.IGNORED ≠ Status.CURRENT
    ∧ stepEntry { added := [], removed := [], is_empty := true } ("f", Status.IGNORED)
        = { added := [], removed := [], is_empty := true } :=
  ⟨by decide, by decide, by decide, by decide,
    scan_skip_amended { added := [], removed := [], is_empty := true } "f" Status.IGNORED
      (by decide) (by decide) (by decide) (by decide)⟩

/-- Claim C2 counterexample: a status combining a staged and a working-tree
modification (`INDEX_MODIFIED | WT_MODIFIED`) is classified as modified, and a
staged deletion (`INDEX_DELETED`) is classified as deleted, but the scan
skips both entries (the exact-value `match` has no arm for them): no path is
staged or removed and the emptiness flag stays `true`, contrary to the
claim. -/
theorem scan_actionable_counterexample :
    isModifiedStatus (Status.INDEX_MODIFIED ||| Status.WT_MODIFIED) = true
    ∧ stepEntry { added := [], removed := [], is_empty := true }
        ("f", Status.INDEX_MODIFIED ||| Status.WT_MODIFIED)
        = { added := [], removed := [], is_empty := true }
    ∧ isDeletedStatus Status.INDEX_DELETED = true
    ∧ stepEntry { added := [], removed := [], is_empty := true } ("g", Status.INDEX_DELETED)
        = { added := [], removed := [], is_empty := true } := by decide

/-- Claim C2 (amended): for every status entry whose status value is exactly
one of the single flags `INDEX_NEW`, `INDEX_MODIFIED`, `WT_NEW`, `WT_MODIFIED`
(added or modified, staged or working-tree, but not a combination) the path is
staged, and for exactly `WT_DELETED` (deleted in the working tree only) the
path is removed from the index; in each of these cases the entry counts
toward at least one path having been staged. Combined status values and
`INDEX_DELETED` are skipped instead. -/
theorem scan_actionable_amended (acc : ScanResult) (p : String) (s : Nat)
    (h : s = Status.INDEX_NEW ∨ s = Status.INDEX_MODIFIED ∨ s = Status.WT_NEW
        ∨ s = Status.WT_MODIFIED ∨ s = Status.WT_DELETED) :
    (stepEntry acc (p, s)).is_empty = false
    ∧ stepEntry acc (p, s) =
        (if s = Status.WT_DELETED then
          { acc with removed := acc.removed ++ [p], is_empty := false }
        else
          { acc with added := acc.added ++ [p], is_empty := false }) := by
  rcases h with rfl | rfl | rfl | rfl | rfl
  · have hact : statusAction Status.INDEX_NEW = .add := rfl
    rw [if_neg (by decide)]
    exact ⟨by simp [stepEntry, hact], by simp [stepEntry, hact]⟩
  · have hact : statusAction Status.INDEX_MODIFIED = .add := rfl
    rw [if_neg (by decide)]
    exact ⟨by simp [stepEntry, hact], by simp [stepEntry, hact]⟩
  · have hact : statusAction Status.WT_NEW = .add := rfl
    rw [if_neg (by decide)]
    exact ⟨by simp [stepEntry, hact], by simp [stepEntry, hact]⟩
  · have hact : statusAction Status.WT_MODIFIED = .add := rfl
    rw [if_neg (by decide)]
    exact ⟨by simp [stepEntry, hact], by simp [stepEntry, hact]⟩
  · have hact : statusAction Status.WT_DELETED = .remove := rfl
    rw [if_pos rfl]
    exact ⟨by simp [stepEntry, hact], by simp [stepEntry, hact]⟩

theorem scan_actionable_amended_witness :
    (Status.WT_MODIFIED = Status.INDEX_NEW ∨ Status.WT_MODIFIED = Status.INDEX_MODIFIED
      ∨ Status.WT_MODIFIED = Status.WT_NEW ∨ Status.WT_MODIFIED = Status.WT_MODIFIED
      ∨ Status.WT_MODIFIED = Status.WT_DELETED)
    ∧ ((stepEntry { added := [], removed := [], is_empty := true }
          ("f", Status.WT_MODIFIED)).is_empty = false
        ∧ stepEntry { added := [], removed := [], is_empty := true } ("f", Status.WT_MODIFIED)
          = (if Status.WT_MODIFIED = Status.WT_DELETED then
              { added := [], removed := [] ++ ["f"], is_empty := false }
            else
              { added := [] ++ ["f"], removed := [], is_empty := false })) :=
  ⟨by decide,
    scan_actionable_amended { added := [], removed := [], is_empty := true } "f"
      Status.WT_MODIFIED (by decide)⟩

/-- Claim C8: when the status scan stages or removes nothing, `main` aborts
with the nothing-to-commit error: exit code 1, no commit created, no index
written to disk, and no tree object written. -/
theorem nothing_to_commit_aborts (args : List String) (rm : RepoModel) (b : String)
    (hargs : args ≠ []) (hdisc : rm.discovered = true) (hidx : rm.indexAvailable = true)
    (hb : rm.branch = some b)
    (hempty : (scanStatuses rm.statuses).is_empty = true) :
    mainModel args rm = .nothingToCommit
    ∧ exitCode (mainModel args rm) = 1
    ∧ commitCreated (mainModel args rm) = false
    ∧ indexWrittenToDisk (mainModel args rm) = false
    ∧ treeWritten (mainModel args rm) = false := by
  have hne : ¬(args.isEmpty = true) := by
    simpa [List.isEmpty_iff] using hargs
  have hm : mainModel args rm = .nothingToCommit := by
    unfold mainModel
    rw [if_neg hne, hdisc, hidx, hb]
    simp [hempty]
  exact ⟨hm, by rw [hm]; rfl, by rw [hm]; rfl, by rw [hm]; rfl, by rw [hm]; rfl⟩

theorem nothing_to_commit_aborts_witness :
    (["foo"] : List String) ≠ []
    ∧ (scanStatuses [("f", Status.IGNORED)]).is_empty = true
    ∧ mainModel ["foo"]
        { discovered := true, indexAvailable := true, branch := some "master",
          statuses := [("f", Status.IGNORED)] } = .nothingToCommit
    ∧ commitCreated (mainModel ["foo"]
        { discovered := true, indexAvailable := true, branch := some "master",
          statuses := [("f", Status.IGNORED)] }) = false :=
  have happ := nothing_to_commit_aborts ["foo"]
    { discovered := true, indexAvailable := true, branch := some "master",
      statuses := [("f", Status.IGNORED)] } "master"
    (by decide) rfl rfl rfl (by decide)
  ⟨by decide, by decide, happ.1, happ.2.2.1⟩

/-- Claim C9: with zero positional arguments, `main` prints the usage message
to standard error and exits with code 1 before touching the repository: the
outcome is the same for every repository state, and no commit, index write or
tree write happens. -/
theorem usage_on_no_args (rm : RepoModel) :
    mainModel [] rm = .usage
    ∧ usagePrinted (mainModel [] rm) = true
    ∧ exitCode (mainModel [] rm) = 1
    ∧ commitCreated (mainModel [] rm) = false
    ∧ indexWrittenToDisk (mainModel [] rm) = false
    ∧ treeWritten (mainModel [] rm) = false
    ∧ (∀ rm2 : RepoModel, mainModel [] rm = mainModel [] rm2) :=
  ⟨rfl, rfl, rfl, rfl, rfl, rfl, fun _ => rfl⟩

example : State.message { branch := "master", args := ["foo", "bar"] } = "foo bar" := by decide
example : State.message { branch := "KDB-123", args := ["foo", "bar"] } = "KDB-123 foo bar" := by decide
example : State.message { branch := "KDB-123", args := ["KDB-456", "bar"] } = "KDB-456 bar" := by decide
example : State.message { branch := "master", args := ["KDB-456", "foo", "bar"] } = "KDB-456 foo bar" := by decide
example : State.message { branch := "KDB-42/feature-x", args := ["did", "thing"] } = "KDB-42 did thing" := by decide
